import Mathlib

/-!
Verification of the sculpt mesh filter
(`source/blender/editors/sculpt_paint/sculpt_filter_mesh.cc`).

The per-vertex body of `mesh_filter_task_cb`, the orientation transforms,
the start/apply/cancel lifecycle and the sharpen initialization are embedded
as executable definitions over exact rationals.  External collaborators that
live outside this file of the repository (neighbor averages, `SCULPT_relax_vertex`,
`SCULPT_surface_smooth_laplacian_step`, `BLI_hash_int_2d`, automasking,
float-bit reinterpretation, `normalize_v3_v3`) are supplied as opaque per-vertex
inputs in an `ExternIn` record: the embedded code reads their results exactly
where the source calls them.
-/

namespace SculptFilterMesh

/-- Object-space vectors: three rational coordinates. -/
abbrev Vec3 := Fin 3 → ℚ

/-- The 3x3 part of the 4x4 frame matrices (`mul_mat3_m4_v3` only ever uses
the 3x3 block). -/
abbrev Mat3 := Matrix (Fin 3) (Fin 3) ℚ

/-- `SculptFilterOrientation` from `sculpt_intern.hh`. -/
inductive SculptFilterOrientation
  | Local
  | World
  | View
deriving DecidableEq

/-- `eSculptMeshFilterType`, lines 262-274. -/
inductive eSculptMeshFilterType
  | smooth
  | scale
  | inflate
  | sphere
  | random
  | relax
  | relaxFaceSets
  | surfaceSmooth
  | sharpen
  | enhanceDetails
  | eraseDisplacement
deriving DecidableEq, BEq

/-- The slice of `FilterCache` (plus `SculptThreadedTaskData.filter_strength`)
that `mesh_filter_task_cb` reads.  The per-vertex auxiliary buffers are
total functions from the global vertex index. -/
structure FilterEnv where
  filter_strength : ℚ
  orientation : SculptFilterOrientation
  obmat : Mat3
  obmat_inv : Mat3
  viewmat : Mat3
  viewmat_inv : Mat3
  enabled_axis : Fin 3 → Bool
  no_orig_co : Bool
  iteration_count : ℕ
  random_seed : ℕ
  sharpen_smooth_ratio : ℚ
  sharpen_intensify_detail_strength : ℚ
  sharpen_factor : ℕ → ℚ
  detail_directions : ℕ → Vec3
  limit_surface_co : ℕ → Vec3

/-- Per-vertex data read from the iterator (`vd`) and the undo snapshot
(`orig_data`): `vd.index`, `vd.mask` (a nullable pointer, hence `Option`),
`vd.co` (live position), `orig_data.co` and `orig_data.no`. -/
structure VertexIn where
  index : ℕ
  mask : Option ℚ
  co : Vec3
  orig_data_co : Vec3
  orig_data_no : Vec3

/-- Results of the external calls made by the per-vertex body, supplied as
opaque inputs (their implementations are outside this file of the repo):
automasking factor, the two neighbor averages, `normalize_v3_v3(orig_co)`,
`SCULPT_relax_vertex` (keyed by whether `SCULPT_BOUNDARY_FACE_SET` is added
to the boundary type, and by the clamped fade), the two outputs of
`SCULPT_surface_smooth_laplacian_step` (the returned `disp` and the value
stored into the per-vertex laplacian buffer), `BLI_hash_int_2d`, the
float-bit reinterpretation `(const uint *)orig_co`, the unique-face-set
query, the sharpen neighbor list `(ni.index, neighbor co)`, and
`SCULPT_surface_smooth_displace_step` (which reads the laplacian buffer). -/
structure ExternIn where
  automask : ℚ
  avg_interior : Vec3
  avg_sharpen : Vec3
  sphere_unit : Vec3
  relax : Bool → ℚ → Vec3
  laplacian_disp : Vec3
  laplacian_store : Vec3
  hash2d : ℕ → ℕ → ℕ
  co_bits : Vec3 → Fin 3 → ℕ
  has_unique_face_set : Bool
  sharpen_nbrs : List (ℕ × Vec3)
  displace : (ℕ → Option Vec3) → ℚ → Vec3 → Vec3

/-- Blender `clamp_f`: clamp value to the closed interval. -/
def clamp_f (x lo hi : ℚ) : ℚ := if x < lo then lo else if x > hi then hi else x

/-- `SCULPT_filter_to_orientation_space`, lines 50-64 (3x3 action of
`mul_mat3_m4_v3`). -/
def SCULPT_filter_to_orientation_space (env : FilterEnv) (v : Vec3) : Vec3 :=
  match env.orientation with
  | .Local => v
  | .World => env.obmat.mulVec v
  | .View => env.viewmat.mulVec (env.obmat.mulVec v)

/-- `SCULPT_filter_to_object_space`, lines 66-80. -/
def SCULPT_filter_to_object_space (env : FilterEnv) (v : Vec3) : Vec3 :=
  match env.orientation with
  | .Local => v
  | .World => env.obmat_inv.mulVec v
  | .View => env.obmat_inv.mulVec (env.viewmat_inv.mulVec v)

/-- The axis loop of lines 545-549: components whose axis is not in
`enabled_axis` are zeroed (in orientation space). -/
def zero_disabled_axis (env : FilterEnv) (v : Vec3) : Vec3 :=
  fun i => if env.enabled_axis i then v i else 0

/-- Lines 544-550: project `disp` to orientation space, zero the disabled
axes, project back to object space. -/
def filter_disp_restricted (env : FilterEnv) (d : Vec3) : Vec3 :=
  SCULPT_filter_to_object_space env
    (zero_disabled_axis env (SCULPT_filter_to_orientation_space env d))

/-- Lines 391-395: `fade = (1 - mask) * strength * automasking_factor`,
with a null mask pointer read as 0. -/
def filterFade (env : FilterEnv) (v : VertexIn) (e : ExternIn) : ℚ :=
  ((1 - v.mask.getD 0) * env.filter_strength) * e.automask

/-- Line 376: `relax_face_sets = !(iteration_count % 3 == 0)`. -/
def relax_face_sets_flag (iteration_count : ℕ) : Bool :=
  !(iteration_count % 3 == 0)

/-- Lines 405-411: `orig_co` is the live position for the relax kinds or when
`no_orig_co` is set, and the undo snapshot position otherwise. -/
def filter_orig_co (env : FilterEnv) (v : VertexIn) (t : eSculptMeshFilterType) : Vec3 :=
  if (t = .relax ∨ t = .relaxFaceSets) ∨ env.no_orig_co = true then v.co
  else v.orig_data_co

/-- Line 464-465: the coordinate-based hash for the Random kind,
`BLI_hash_int_2d(co[0], co[1]) ^ BLI_hash_int_2d(co[2], seed)` over the
reinterpreted float bits of `orig_co`. -/
def random_disp_hash (env : FilterEnv) (e : ExternIn) (oc : Vec3) : ℕ :=
  Nat.xor (e.hash2d (e.co_bits oc 0) (e.co_bits oc 1))
    (e.hash2d (e.co_bits oc 2) env.random_seed)

/-- Lines 488-530, the Sharpen displacement: the neighbor-weighted sharpening
sum scaled by `1 - sharpen_factor[v]`, the average-position pull scaled by
`smooth_ratio * sharpen_factor[v]^2`, and the optional detail intensification. -/
def sharpen_disp (env : FilterEnv) (v : VertexIn) (e : ExternIn) : Vec3 :=
  let disp_sharpen :=
    (1 - env.sharpen_factor v.index) •
      (e.sharpen_nbrs.foldl
        (fun acc nb => acc + env.sharpen_factor nb.1 • (nb.2 - v.co)) (0 : Vec3))
  let disp_avg :=
    (env.sharpen_smooth_ratio * (env.sharpen_factor v.index)^2) •
      (e.avg_sharpen - v.co)
  let disp := disp_avg + disp_sharpen
  if env.sharpen_intensify_detail_strength > 0 then
    disp + (-(env.sharpen_intensify_detail_strength * env.sharpen_factor v.index)) •
      env.detail_directions v.index
  else disp

/-- The switch of lines 419-542: the per-kind displacement in object space,
paired with the (possibly re-clamped) value of the mutable `fade` variable
after the switch.  `scale_m3_fl` on the identity acts as scalar
multiplication; `mid_v3_v3v3` is the midpoint. -/
def mesh_filter_disp (env : FilterEnv) (v : VertexIn) (e : ExternIn)
    (t : eSculptMeshFilterType) (fade : ℚ) (orig_co : Vec3) : Vec3 × ℚ :=
  match t with
  | .smooth =>
      let fade2 := clamp_f fade (-1) 1
      let val := e.avg_interior - orig_co
      let val2 := orig_co + fade2 • val
      (val2 - orig_co, fade2)
  | .inflate => (fade • v.orig_data_no, fade)
  | .scale =>
      let val := (1 + fade) • orig_co
      (val - orig_co, fade)
  | .sphere =>
      let disp := if fade > 0 then fade • e.sphere_unit else (-fade) • e.sphere_unit
      let s := if fade > 0 then 1 - fade else 1 + fade
      let disp2 := s • orig_co - orig_co
      ((1/2 : ℚ) • (disp + disp2), fade)
  | .random =>
      let hash := random_disp_hash env e orig_co
      let normal := ((hash : ℚ) * (1 / 4294967295) - 1/2) • v.orig_data_no
      (fade • normal, fade)
  | .relax => (e.relax false (clamp_f fade 0 1) - v.co, fade)
  | .relaxFaceSets =>
      (e.relax (relax_face_sets_flag env.iteration_count) (clamp_f fade 0 1) - v.co,
       fade)
  | .surfaceSmooth => (e.laplacian_disp, fade)
  | .sharpen => (sharpen_disp env v e, clamp_f fade 0 (1/2))
  | .enhanceDetails => ((-|fade|) • env.detail_directions v.index, fade)
  | .eraseDisplacement =>
      let fade2 := clamp_f fade (-1) 1
      (fade2 • (env.limit_surface_co v.index - orig_co), fade2)

/-- Lines 552-557: SurfaceSmooth and Sharpen blend the restricted displacement
onto the live position with `clamp_f(fade, 0, 1)`; every other kind adds it
to `orig_co`. -/
def mesh_filter_final_pos (env : FilterEnv) (v : VertexIn) (e : ExternIn)
    (t : eSculptMeshFilterType) : Vec3 :=
  if t = .surfaceSmooth ∨ t = .sharpen then
    v.co +
      clamp_f (mesh_filter_disp env v e t (filterFade env v e) (filter_orig_co env v t)).2
          0 1 •
        filter_disp_restricted env
          (mesh_filter_disp env v e t (filterFade env v e) (filter_orig_co env v t)).1
  else
    filter_orig_co env v t +
      filter_disp_restricted env
        (mesh_filter_disp env v e t (filterFade env v e) (filter_orig_co env v t)).1

/-- The position the restricted displacement is applied to by lines 552-557:
the live position for the blending kinds (SurfaceSmooth, Sharpen), the
selected `orig_co` for every other kind. -/
def final_pos_base (env : FilterEnv) (v : VertexIn) (t : eSculptMeshFilterType) : Vec3 :=
  if t = .surfaceSmooth ∨ t = .sharpen then v.co else filter_orig_co env v t

/-- Line 485 writes the per-vertex laplacian buffer exactly for the
SurfaceSmooth kind. -/
def mesh_filter_lap_write (e : ExternIn) (t : eSculptMeshFilterType) : Option Vec3 :=
  if t = eSculptMeshFilterType.surfaceSmooth then some e.laplacian_store else none

/-- Result of one vertex of `mesh_filter_task_cb`: the written position
(`none` when the loop body `continue`s without writing) and the laplacian
buffer write. -/
structure MeshFilterStepOut where
  new_co : Option Vec3
  laplacian_write : Option Vec3
deriving DecidableEq

/-- The loop body of `mesh_filter_task_cb`, lines 386-562: skip at zero fade
for every kind but SurfaceSmooth (lines 397-403), skip RelaxFaceSets vertices
whose unique-face-set status equals the iteration mode (lines 413-417), then
displace. -/
def mesh_filter_task_step (env : FilterEnv) (v : VertexIn) (e : ExternIn)
    (t : eSculptMeshFilterType) : MeshFilterStepOut :=
  if filterFade env v e = 0 ∧ t ≠ eSculptMeshFilterType.surfaceSmooth then ⟨none, none⟩
  else if t = eSculptMeshFilterType.relaxFaceSets ∧
      relax_face_sets_flag env.iteration_count = e.has_unique_face_set then ⟨none, none⟩
  else ⟨some (mesh_filter_final_pos env v e t), mesh_filter_lap_write e t⟩

/-- The loop body of `mesh_filter_surface_smooth_displace_task_cb`,
lines 687-705: recompute the fade, skip at zero, otherwise hand the vertex to
the external `SCULPT_surface_smooth_displace_step`, which reads the laplacian
buffer filled by the first pass. -/
def surface_smooth_displace_step (env : FilterEnv) (v : VertexIn) (e : ExternIn)
    (lap : ℕ → Option Vec3) : Option Vec3 :=
  if filterFade env v e = 0 then none
  else some (e.displace lap (clamp_f (filterFade env v e) 0 1) v.co)

/-! ## Node passes and the filter lifecycle

The `BLI_task_parallel_range` fan-outs are fork-join with disjoint per-node
vertex sets, so one apply call is embedded as the sequential fold of the
per-node loops; the SurfaceSmooth displace pass is a second fold run only
after the first one has returned (lines 729-739). -/

/-- Mesh-wide mutable state during one filter operation: live positions and
the per-vertex laplacian buffer (`none` = never written). -/
structure SurfState (n : ℕ) where
  pos : Fin n → Vec3
  lap : Fin n → Option Vec3

/-- Per-vertex immutable inputs of a mesh with `n` vertices: mask, undo
snapshot, and the external-call results for each vertex. -/
structure MeshInputs (n : ℕ) where
  mask : Fin n → Option ℚ
  orig_co : Fin n → Vec3
  orig_no : Fin n → Vec3
  ext : Fin n → ExternIn

/-- Assemble the iterator view of vertex `i` at live position `co`. -/
def mkVertexIn {n : ℕ} (mi : MeshInputs n) (i : Fin n) (co : Vec3) : VertexIn :=
  ⟨i.val, mi.mask i, co, mi.orig_co i, mi.orig_no i⟩

/-- One node of the first pass: run `mesh_filter_task_step` on each unique
vertex of the node, in iteration order. -/
def filter_node_pass {n : ℕ} (env : FilterEnv) (mi : MeshInputs n)
    (t : eSculptMeshFilterType) (node : List (Fin n)) (s : SurfState n) : SurfState n :=
  node.foldl
    (fun st i =>
      let out := mesh_filter_task_step env (mkVertexIn mi i (st.pos i)) (mi.ext i) t
      { pos := Function.update st.pos i (out.new_co.getD (st.pos i)),
        lap :=
          match out.laplacian_write with
          | some l => Function.update st.lap i (some l)
          | none => st.lap })
    s

/-- The first `BLI_task_parallel_range` of `sculpt_mesh_filter_apply`
(line 731): `mesh_filter_task_cb` over every node. -/
def filter_main_pass {n : ℕ} (env : FilterEnv) (mi : MeshInputs n)
    (t : eSculptMeshFilterType) (nodes : List (List (Fin n))) (s : SurfState n) :
    SurfState n :=
  nodes.foldl (fun st node => filter_node_pass env mi t node st) s

/-- One node of the SurfaceSmooth displace pass (pass 2). -/
def displace_node_pass {n : ℕ} (env : FilterEnv) (mi : MeshInputs n)
    (node : List (Fin n)) (s : SurfState n) : SurfState n :=
  node.foldl
    (fun st i =>
      let lapN : ℕ → Option Vec3 := fun j => if h : j < n then st.lap ⟨j, h⟩ else none
      match surface_smooth_displace_step env (mkVertexIn mi i (st.pos i)) (mi.ext i) lapN with
      | some p => { st with pos := Function.update st.pos i p }
      | none => st)
    s

/-- The second `BLI_task_parallel_range` of `sculpt_mesh_filter_apply`
(lines 734-738): `mesh_filter_surface_smooth_displace_task_cb` over every node. -/
def surface_smooth_displace_pass {n : ℕ} (env : FilterEnv) (mi : MeshInputs n)
    (nodes : List (List (Fin n))) (s : SurfState n) : SurfState n :=
  nodes.foldl (fun st node => displace_node_pass env mi node st) s

/-- The vertex-mutating part of one `sculpt_mesh_filter_apply` call,
lines 729-739: the main pass over all nodes, then — only for SurfaceSmooth —
the displace pass over all nodes, strictly after the first has completed. -/
def sculpt_mesh_filter_apply_passes {n : ℕ} (env : FilterEnv) (mi : MeshInputs n)
    (t : eSculptMeshFilterType) (nodes : List (List (Fin n))) (s : SurfState n) :
    SurfState n :=
  let s1 := filter_main_pass env mi t nodes s
  if t = eSculptMeshFilterType.surfaceSmooth then
    surface_smooth_displace_pass env mi nodes s1
  else s1

/-- `sculpt_mesh_filter_cancel`, lines 807-839: gather all leaf nodes and
copy the undo-snapshot coordinate over every unique vertex of every node. -/
def sculpt_mesh_filter_cancel {n : ℕ} (orig : Fin n → Vec3)
    (nodes : List (List (Fin n))) (pos : Fin n → Vec3) : Fin n → Vec3 :=
  nodes.foldl
    (fun p node => node.foldl (fun p i => Function.update p i (orig i)) p) pos

/-- Operator return statuses used by `sculpt_mesh_filter_start`. -/
inductive wmOperatorStatus
  | OPERATOR_CANCELLED
  | OPERATOR_PASS_THROUGH
deriving DecidableEq

/-- The externally visible actions of `sculpt_mesh_filter_start`
(lines 900-992), in program order. -/
inductive StartEffect
  | update_object_for_edit
  | stroke_id_next
  | cursor_geometry_update
  | boundary_info_ensure
  | undo_push_begin
  | filter_cache_init
  | automasking_cache_init
  | surface_smooth_init
  | sharpen_init
  | enhance_details_init
  | limit_surface_init
  | set_axis_and_orientation
deriving DecidableEq, BEq

/-- `sculpt_mesh_filter_start`, lines 900-992, as a status plus the ordered
trace of its actions.  The empty-axis check at lines 918-921 returns
`OPERATOR_CANCELLED` after only the object sync at line 912, before the undo
push (line 939) and the cache construction (line 941). -/
def sculpt_mesh_filter_start (deform_axis : ℕ) (use_automasking : Bool)
    (needs_topology_info : Bool) (t : eSculptMeshFilterType) :
    wmOperatorStatus × List StartEffect :=
  if deform_axis = 0 then
    (.OPERATOR_CANCELLED, [StartEffect.update_object_for_edit])
  else
    (.OPERATOR_PASS_THROUGH,
      [StartEffect.update_object_for_edit]
        ++ (if use_automasking then
             [StartEffect.stroke_id_next, StartEffect.cursor_geometry_update] else [])
        ++ (if needs_topology_info then [StartEffect.boundary_info_ensure] else [])
        ++ [StartEffect.undo_push_begin, StartEffect.filter_cache_init,
            StartEffect.automasking_cache_init]
        ++ (match t with
            | .surfaceSmooth => [StartEffect.surface_smooth_init]
            | .sharpen => [StartEffect.sharpen_init]
            | .enhanceDetails => [StartEffect.enhance_details_init]
            | .eraseDisplacement => [StartEffect.limit_surface_init]
            | _ => [])
        ++ [StartEffect.set_axis_and_orientation])

/-- The externally visible actions of `sculpt_mesh_filter_apply`
(lines 708-753), in program order. -/
inductive ApplyEffect
  | laplacian_init
  | filter_task_pass
  | surface_smooth_displace_pass
  | flush_stroke_deform
  | pbvh_update_normals
  | flush_update_step
deriving DecidableEq, BEq

/-- Line 748: `ELEM(MESH_FILTER_RELAX, MESH_FILTER_RELAX_FACE_SETS)`.  The
`filter_type` argument is missing from the `ELEM` call, so the condition
compares the two enum constants to each other and ignores its argument. -/
def relax_filter_normals_condition (_t : eSculptMeshFilterType) : Bool :=
  eSculptMeshFilterType.relax == eSculptMeshFilterType.relaxFaceSets

/-- `sculpt_mesh_filter_apply`, lines 708-753, as the ordered trace of its
actions plus the new `iteration_count` (incremented at line 741 after the
passes and before the normals test at line 748). -/
def sculpt_mesh_filter_apply_trace (t : eSculptMeshFilterType)
    (deform_or_shapekey : Bool) (iteration_count : ℕ) : List ApplyEffect × ℕ :=
  ((if t = eSculptMeshFilterType.surfaceSmooth then [ApplyEffect.laplacian_init] else [])
     ++ [ApplyEffect.filter_task_pass]
     ++ (if t = eSculptMeshFilterType.surfaceSmooth then
          [ApplyEffect.surface_smooth_displace_pass] else [])
     ++ (if deform_or_shapekey then [ApplyEffect.flush_stroke_deform] else [])
     ++ (if relax_filter_normals_condition t then [ApplyEffect.pbvh_update_normals] else [])
     ++ [ApplyEffect.flush_update_step],
   iteration_count + 1)

/-! ## Sharpen initialization (`mesh_filter_sharpen_init`, lines 609-672)

`SCULPT_neighbor_coords_average` and `len_v3` live outside this file of the
repository, so the initial detail directions are a parameter `dirs` and the
Euclidean length is a parameter `lenv` (the theorems assume only that it is
nonnegative and vanishes exactly on the zero vector, which the float
`len_v3` satisfies). -/

/-- The max-search loop of lines 634-639, written exactly as the fold of the source,
`if (f[i] > max_factor)`, with `max_factor` starting at `0`. -/
def max_factor_fold {α : Type} (l : List α) (f : α → ℚ) : ℚ :=
  l.foldl (fun m i => if f i > m then f i else m) 0

/-- The global maximum of the per-vertex factors over vertices `0..n-1`. -/
def sharpen_max_factor (n : ℕ) (f : Fin n → ℚ) : ℚ :=
  max_factor_fold (List.finRange n) f

/-- Line 631: `sharpen_factor[i] = len_v3(detail_directions[i])`. -/
def sharpen_factor_raw (n : ℕ) (lenv : Vec3 → ℚ) (dirs : Fin n → Vec3) :
    Fin n → ℚ :=
  fun i => lenv (dirs i)

/-- Lines 641-645: `max_factor = 1 / max_factor`, then
`f[i] *= max_factor; f[i] = 1 - pow2f(1 - f[i])` for every vertex. -/
def sharpen_factor_normalized (n : ℕ) (lenv : Vec3 → ℚ) (dirs : Fin n → Vec3) :
    Fin n → ℚ :=
  let inv := 1 / sharpen_max_factor n (sharpen_factor_raw n lenv dirs)
  fun i => 1 - (1 - sharpen_factor_raw n lenv dirs i * inv)^2

/-- One smoothing pass of lines 651-670: for each vertex in index order,
accumulate the detail directions and factors of the neighbors and overwrite
the entries of the vertex in place — later vertices of the same pass read
already overwritten values, exactly as the in-place loop of the source does. -/
def sharpen_smooth_pass (n : ℕ) (nbrs : Fin n → List (Fin n))
    (st : (Fin n → Vec3) × (Fin n → ℚ)) : (Fin n → Vec3) × (Fin n → ℚ) :=
  (List.finRange n).foldl
    (fun st i =>
      let acc := (nbrs i).foldl
        (fun (a : Vec3 × ℚ × ℕ) j => (a.1 + st.1 j, a.2.1 + st.2 j, a.2.2 + 1))
        ((0 : Vec3), (0 : ℚ), (0 : ℕ))
      if 0 < acc.2.2 then
        (Function.update st.1 i ((1 / (acc.2.2 : ℚ)) • acc.1),
         Function.update st.2 i (acc.2.1 / (acc.2.2 : ℚ)))
      else st)
    st

/-- `mesh_filter_sharpen_init` after the buffers are filled: normalize and
remap the factors, then run the configured number of in-place smoothing
passes over directions and factors. -/
def mesh_filter_sharpen_init (n : ℕ) (nbrs : Fin n → List (Fin n))
    (lenv : Vec3 → ℚ) (dirs : Fin n → Vec3) (smooth_iterations : ℕ) :
    (Fin n → Vec3) × (Fin n → ℚ) :=
  (sharpen_smooth_pass n nbrs)^[smooth_iterations]
    (dirs, sharpen_factor_normalized n lenv dirs)

/-! ## Float-finiteness model of the sharpen normalization

Lines 641-645 divide by `max_factor` with no zero guard.  To state what the
float code produces when the divisor is exactly zero, the same scalar
pipeline is repeated over `Option ℚ`, where `none` stands for a non-finite
IEEE value: dividing by zero yields `none` and every operation on a
non-finite operand is non-finite, matching the float semantics
(`1.0f / 0.0f = inf`, `0.0f * inf = NaN`, ...). -/

/-- Float division, tracking finiteness: division by zero is non-finite. -/
def finite_div (a b : ℚ) : Option ℚ := if b = 0 then none else some (a / b)

/-- Float multiplication, tracking finiteness. -/
def finite_mul (x y : Option ℚ) : Option ℚ :=
  match x, y with
  | some a, some b => some (a * b)
  | _, _ => none

/-- Float subtraction, tracking finiteness. -/
def finite_sub (x y : Option ℚ) : Option ℚ :=
  match x, y with
  | some a, some b => some (a - b)
  | _, _ => none

/-- Lines 641-645 over the finiteness-tracking scalars:
`inv = 1 / max_factor`, `y = 1 - f[i] * inv`, result `1 - y * y`. -/
def sharpen_factor_normalized_float (n : ℕ) (lenv : Vec3 → ℚ)
    (dirs : Fin n → Vec3) : Fin n → Option ℚ :=
  let inv := finite_div 1 (sharpen_max_factor n (sharpen_factor_raw n lenv dirs))
  fun i =>
    let y := finite_sub (some 1)
      (finite_mul (some (sharpen_factor_raw n lenv dirs i)) inv)
    finite_sub (some 1) (finite_mul y y)

/-! ## Concrete instances used to evaluate the definitions -/

/-- A concrete cache environment with the given strength: Local orientation,
identity frame matrices, the Z axis disabled, fresh counters. -/
def wEnv (s : ℚ) : FilterEnv :=
  { filter_strength := s
    orientation := .Local
    obmat := 1
    obmat_inv := 1
    viewmat := 1
    viewmat_inv := 1
    enabled_axis := fun i => decide (i.val < 2)
    no_orig_co := false
    iteration_count := 0
    random_seed := 0
    sharpen_smooth_ratio := 0
    sharpen_intensify_detail_strength := 0
    sharpen_factor := fun _ => 0
    detail_directions := fun _ => 0
    limit_surface_co := fun _ => 0 }

/-- Concrete external-call results. -/
def wExt : ExternIn :=
  { automask := 1
    avg_interior := 0
    avg_sharpen := 0
    sphere_unit := 0
    relax := fun _ _ => 0
    laplacian_disp := fun _ => 1
    laplacian_store := 0
    hash2d := fun a b => a + b
    co_bits := fun _ _ => 0
    has_unique_face_set := false
    sharpen_nbrs := []
    displace := fun _ _ co => co }

/-- A concrete vertex at the origin with unit snapshot normal and no mask. -/
def wV : VertexIn :=
  { index := 0
    mask := none
    co := fun _ => 0
    orig_data_co := fun _ => 0
    orig_data_no := fun _ => 1 }

/-- One-vertex mesh inputs built from `wExt`. -/
def wMi : MeshInputs 1 :=
  { mask := fun _ => none
    orig_co := fun _ => fun _ => 0
    orig_no := fun _ => fun _ => 1
    ext := fun _ => wExt }

/-- Initial one-vertex state: origin position, laplacian buffer unwritten. -/
def wS : SurfState 1 := { pos := fun _ => fun _ => 0, lap := fun _ => none }

/-- The position `mesh_filter_task_cb` writes for `wEnv 1`, `wV`, `wExt`,
Inflate: the unit normal with its disabled Z component zeroed. -/
def c3p : Vec3 := fun k => if k.val < 2 then 1 else 0

/-- Two-vertex detail directions: vertex 0 has a unit-length direction,
vertex 1 a zero direction. -/
def cDirs : Fin 2 → Vec3 := fun i => fun j => if i.val = 0 ∧ j.val = 0 then 1 else 0

/-- A concrete length functional (agrees with the Euclidean length on the
axis-aligned vectors used here, and satisfies the nonnegativity and
definiteness the theorems assume of `len_v3`). -/
def cLen : Vec3 → ℚ := fun v => |v 0| + |v 1| + |v 2|

/-- Two-vertex neighborhood: each vertex has the other as sole neighbor. -/
def cNbrs : Fin 2 → List (Fin 2) := fun i => if i.val = 0 then [1] else [0]

/-- One-vertex detail directions with a unit-length direction. -/
def cDirs1 : Fin 1 → Vec3 := fun _ => fun j => if j.val = 0 then 1 else 0

/-! ## Helper lemmas -/

/-- When the snapshotted 3x3 frame matrices are mutually inverse — which holds
by construction at `SCULPT_filter_cache_init`, where `obmat_inv` and
`viewmat_inv` are the inverses of the affine `obmat` and `viewmat` — the
object-space projection is a right inverse of the orientation-space
projection. -/
theorem to_orientation_to_object (env : FilterEnv)
    (hob : env.obmat * env.obmat_inv = 1)
    (hview : env.viewmat * env.viewmat_inv = 1) (w : Vec3) :
    SCULPT_filter_to_orientation_space env (SCULPT_filter_to_object_space env w) = w := by
  cases h : env.orientation with
  | Local =>
      simp [SCULPT_filter_to_orientation_space, SCULPT_filter_to_object_space, h]
  | World =>
      simp [SCULPT_filter_to_orientation_space, SCULPT_filter_to_object_space, h,
        Matrix.mulVec_mulVec, hob, Matrix.one_mulVec]
  | View =>
      simp only [SCULPT_filter_to_orientation_space, SCULPT_filter_to_object_space, h,
        Matrix.mulVec_mulVec]
      rw [← mul_assoc env.obmat, hob, one_mul, hview, Matrix.one_mulVec]

/-- The orientation-space projection commutes with scalar multiplication. -/
theorem to_orientation_smul (env : FilterEnv) (c : ℚ) (w : Vec3) :
    SCULPT_filter_to_orientation_space env (c • w)
      = c • SCULPT_filter_to_orientation_space env w := by
  cases h : env.orientation <;>
    simp [SCULPT_filter_to_orientation_space, h, Matrix.mulVec_smul]

/-- Seen from orientation space, the restricted displacement of lines 544-550
has an exactly zero component along every disabled axis. -/
theorem filter_disp_restricted_component (env : FilterEnv)
    (hob : env.obmat * env.obmat_inv = 1)
    (hview : env.viewmat * env.viewmat_inv = 1)
    (a : Fin 3) (hax : env.enabled_axis a = false) (d : Vec3) :
    SCULPT_filter_to_orientation_space env (filter_disp_restricted env d) a = 0 := by
  unfold filter_disp_restricted
  rw [to_orientation_to_object env hob hview]
  simp [zero_disabled_axis, hax]

/-- The final position of every kind differs from its base by the restricted
displacement (possibly rescaled), so its offset vanishes on disabled axes. -/
theorem mesh_filter_final_pos_axis (env : FilterEnv) (v : VertexIn) (e : ExternIn)
    (t : eSculptMeshFilterType) (a : Fin 3)
    (hob : env.obmat * env.obmat_inv = 1)
    (hview : env.viewmat * env.viewmat_inv = 1)
    (hax : env.enabled_axis a = false) :
    SCULPT_filter_to_orientation_space env
      (mesh_filter_final_pos env v e t - final_pos_base env v t) a = 0 := by
  unfold mesh_filter_final_pos final_pos_base
  by_cases hb : t = eSculptMeshFilterType.surfaceSmooth ∨ t = eSculptMeshFilterType.sharpen
  · rw [if_pos hb, if_pos hb, add_sub_cancel_left, to_orientation_smul]
    rw [Pi.smul_apply, filter_disp_restricted_component env hob hview a hax, smul_zero]
  · rw [if_neg hb, if_neg hb, add_sub_cancel_left]
    exact filter_disp_restricted_component env hob hview a hax _

/-! ## C1 -/

/-- C1: for every filter kind and every vertex, if the per-vertex fade is
zero — in particular when `strength == 0`, or when the paint mask is 1 (with
any automasking factor) — then one apply iteration leaves the vertex where it
was: the main pass either skips the vertex or (for SurfaceSmooth, whose blend
factor is then zero) writes back its unchanged live position, and the
SurfaceSmooth displace pass skips the vertex. -/
theorem zero_fade_is_noop (env : FilterEnv) (v : VertexIn) (e : ExternIn)
    (hfade : env.filter_strength = 0 ∨ v.mask = some 1 ∨ filterFade env v e = 0) :
    ∀ (t : eSculptMeshFilterType) (lap : ℕ → Option Vec3),
      (mesh_filter_task_step env v e t).new_co.getD v.co = v.co ∧
      surface_smooth_displace_step env v e lap = none := by
  have hf : filterFade env v e = 0 := by
    rcases hfade with h | h | h
    · simp [filterFade, h]
    · simp [filterFade, h]
    · exact h
  intro t lap
  refine ⟨?_, by simp [surface_smooth_displace_step, hf]⟩
  by_cases hss : t = eSculptMeshFilterType.surfaceSmooth
  · subst hss
    simp [mesh_filter_task_step, mesh_filter_final_pos, mesh_filter_disp, hf, clamp_f]
  · simp [mesh_filter_task_step, hf, hss]

/-- Evaluation of `zero_fade_is_noop` at strength 0 for the SurfaceSmooth
kind, the one that is not simply skipped. -/
theorem zero_fade_is_noop_witness :
    (wEnv 0).filter_strength = 0 ∧
    (mesh_filter_task_step (wEnv 0) wV wExt .surfaceSmooth).new_co.getD wV.co = wV.co ∧
    surface_smooth_displace_step (wEnv 0) wV wExt (fun _ => none) = none :=
  ⟨rfl,
   (zero_fade_is_noop (wEnv 0) wV wExt (Or.inl rfl) .surfaceSmooth (fun _ => none)).1,
   (zero_fade_is_noop (wEnv 0) wV wExt (Or.inl rfl) .surfaceSmooth (fun _ => none)).2⟩

/-! ## C3 -/

/-- C3: for every vertex and kind, when the per-vertex body writes a position,
the displacement it applied (the written position minus the base it was added
to) has exactly zero component along every disabled axis, expressed in the
configured orientation frame; the frame matrices are assumed mutually inverse,
as `SCULPT_filter_cache_init` constructs them. -/
theorem axis_exclusion (env : FilterEnv) (v : VertexIn) (e : ExternIn)
    (t : eSculptMeshFilterType) (a : Fin 3)
    (hob : env.obmat * env.obmat_inv = 1)
    (hview : env.viewmat * env.viewmat_inv = 1)
    (hax : env.enabled_axis a = false)
    (p : Vec3) (hp : (mesh_filter_task_step env v e t).new_co = some p) :
    SCULPT_filter_to_orientation_space env (p - final_pos_base env v t) a = 0 := by
  have hp2 : p = mesh_filter_final_pos env v e t := by
    unfold mesh_filter_task_step at hp
    split_ifs at hp
    all_goals first
      | exact hp.symm
      | exact (Option.some.inj hp).symm
  rw [hp2]
  exact mesh_filter_final_pos_axis env v e t a hob hview hax

/-- Evaluation of `axis_exclusion` for the Inflate kind with the Z axis
disabled in a Local frame. -/
theorem axis_exclusion_witness :
    (wEnv 1).enabled_axis 2 = false ∧
    SCULPT_filter_to_orientation_space (wEnv 1)
      (mesh_filter_final_pos (wEnv 1) wV wExt .inflate
        - final_pos_base (wEnv 1) wV .inflate) 2 = 0 := by
  have hf : filterFade (wEnv 1) wV wExt = 1 := by
    norm_num [filterFade, wEnv, wV, wExt]
  have hp : (mesh_filter_task_step (wEnv 1) wV wExt .inflate).new_co
      = some (mesh_filter_final_pos (wEnv 1) wV wExt .inflate) := by
    simp [mesh_filter_task_step, hf]
  exact ⟨rfl, axis_exclusion (wEnv 1) wV wExt .inflate 2 (one_mul 1) (one_mul 1) rfl _ hp⟩

/-! ## C7 -/

/-- C7: the Random kind is deterministic and coordinate-based.  The per-vertex
body is a pure function, so two runs with identical original coordinates,
normals, mask, strength, seed and automasking agree; moreover neither the hash
nor the written position reads the vertex index: two vertices differing only in
their index produce the same hash value and the same output. -/
theorem random_is_coordinate_hash (env : FilterEnv) (e : ExternIn)
    (m : Option ℚ) (co oc onrm : Vec3) (i j : ℕ) :
    mesh_filter_task_step env ⟨i, m, co, oc, onrm⟩ e .random =
      mesh_filter_task_step env ⟨j, m, co, oc, onrm⟩ e .random ∧
    random_disp_hash env e (filter_orig_co env ⟨i, m, co, oc, onrm⟩ .random) =
      random_disp_hash env e (filter_orig_co env ⟨j, m, co, oc, onrm⟩ .random) :=
  ⟨rfl, rfl⟩

/-! ## C8 -/

/-- C8: for the RelaxFaceSets kind (at nonzero fade, so the generic zero-fade
skip does not interfere): the iteration mode flag is false exactly on
iterations with `iteration_count % 3 == 0`; the vertex is skipped exactly when
the flag equals its unique-face-set status; and a written position relaxes
with the face-set boundary rule added exactly when the flag is set. -/
theorem relax_face_sets_alternation (env : FilterEnv) (v : VertexIn) (e : ExternIn)
    (hfade : filterFade env v e ≠ 0) :
    (relax_face_sets_flag env.iteration_count = false ↔
      env.iteration_count % 3 = 0) ∧
    ((mesh_filter_task_step env v e .relaxFaceSets).new_co = none ↔
      relax_face_sets_flag env.iteration_count = e.has_unique_face_set) ∧
    (∀ p, (mesh_filter_task_step env v e .relaxFaceSets).new_co = some p →
      p = filter_orig_co env v .relaxFaceSets +
        filter_disp_restricted env
          (e.relax (relax_face_sets_flag env.iteration_count)
            (clamp_f (filterFade env v e) 0 1) - v.co)) := by
  refine ⟨?_, ?_, ?_⟩
  · simp [relax_face_sets_flag]
  · by_cases hq : relax_face_sets_flag env.iteration_count = e.has_unique_face_set
    · simp [mesh_filter_task_step, hfade, hq]
    · simp [mesh_filter_task_step, hfade, hq]
  · intro p hp
    by_cases hq : relax_face_sets_flag env.iteration_count = e.has_unique_face_set
    · simp [mesh_filter_task_step, hfade, hq] at hp
    · simp [mesh_filter_task_step, hfade, hq, mesh_filter_final_pos,
        mesh_filter_disp] at hp
      exact hp.symm

/-- Evaluation of `relax_face_sets_alternation` at iteration 0 (a
mesh-boundary-only iteration) with unit fade. -/
theorem relax_face_sets_alternation_witness :
    filterFade (wEnv 1) wV wExt ≠ 0 ∧
    ((mesh_filter_task_step (wEnv 1) wV wExt .relaxFaceSets).new_co = none ↔
      relax_face_sets_flag (wEnv 1).iteration_count = wExt.has_unique_face_set) := by
  have hf : filterFade (wEnv 1) wV wExt = 1 := by
    norm_num [filterFade, wEnv, wV, wExt]
  refine ⟨by rw [hf]; norm_num, ?_⟩
  exact (relax_face_sets_alternation (wEnv 1) wV wExt (by rw [hf]; norm_num)).2.1

/-! ## C4 -/

/-- C4: when the resolved deform-axis mask is empty (no bit of the X/Y/Z flag
set, hence the enum value 0), `sculpt_mesh_filter_start` returns
`OPERATOR_CANCELLED` having performed only the object sync of line 912: in
particular no undo snapshot is begun and no FilterCache is built, so no mesh
state is touched. -/
theorem empty_axis_mask_cancels (deform_axis : ℕ) (ua nt : Bool)
    (t : eSculptMeshFilterType) (hlt : deform_axis < 8)
    (hax : ∀ a : Fin 3, deform_axis.testBit a.val = false) :
    deform_axis = 0 ∧
    sculpt_mesh_filter_start deform_axis ua nt t =
      (wmOperatorStatus.OPERATOR_CANCELLED, [StartEffect.update_object_for_edit]) ∧
    StartEffect.undo_push_begin ∉ (sculpt_mesh_filter_start deform_axis ua nt t).2 ∧
    StartEffect.filter_cache_init ∉ (sculpt_mesh_filter_start deform_axis ua nt t).2 := by
  have h0 : deform_axis = 0 := by
    have h1 := hax 0
    have h2 := hax 1
    have h3 := hax 2
    interval_cases deform_axis <;> revert h1 h2 h3 <;> decide
  subst h0
  refine ⟨rfl, rfl, ?_, ?_⟩ <;> simp [sculpt_mesh_filter_start]

/-- Evaluation of `empty_axis_mask_cancels` at the zero axis flag. -/
theorem empty_axis_mask_cancels_witness :
    (0 : ℕ) < 8 ∧ (∀ a : Fin 3, (0 : ℕ).testBit a.val = false) ∧
    sculpt_mesh_filter_start 0 false false .smooth =
      (wmOperatorStatus.OPERATOR_CANCELLED, [StartEffect.update_object_for_edit]) :=
  ⟨by decide, by decide,
   (empty_axis_mask_cancels 0 false false .smooth (by decide) (by decide)).2.1⟩

/-! ## C5 -/

/-- C5 (divergence witness): each `sculpt_mesh_filter_apply` runs exactly one
`mesh_filter_task_cb` pass and increments `iteration_count` by exactly one,
but — because the `ELEM` call at line 748 omits `filter_type` and therefore
compares `MESH_FILTER_RELAX` to `MESH_FILTER_RELAX_FACE_SETS` — the normals
refresh is never requested, not even for the Relax and RelaxFaceSets kinds
that the comment above line 747 (and the spec) say need it. -/
theorem relax_normals_never_refreshed :
    (∀ (t : eSculptMeshFilterType) (d : Bool) (it : ℕ),
      (sculpt_mesh_filter_apply_trace t d it).1.count ApplyEffect.filter_task_pass = 1 ∧
      (sculpt_mesh_filter_apply_trace t d it).2 = it + 1) ∧
    (∀ (t : eSculptMeshFilterType) (d : Bool) (it : ℕ),
      ApplyEffect.pbvh_update_normals ∉ (sculpt_mesh_filter_apply_trace t d it).1) ∧
    ApplyEffect.pbvh_update_normals ∉
      (sculpt_mesh_filter_apply_trace .relax false 0).1 ∧
    ApplyEffect.pbvh_update_normals ∉
      (sculpt_mesh_filter_apply_trace .relaxFaceSets false 0).1 := by
  have hmem : ∀ (t : eSculptMeshFilterType) (d : Bool) (it : ℕ),
      ApplyEffect.pbvh_update_normals ∉ (sculpt_mesh_filter_apply_trace t d it).1 := by
    intro t d it
    have hbe : (eSculptMeshFilterType.relax == eSculptMeshFilterType.relaxFaceSets)
        = false := rfl
    cases t <;> cases d <;>
      simp [sculpt_mesh_filter_apply_trace, relax_filter_normals_condition, hbe]
  refine ⟨fun t d it => ⟨?_, rfl⟩, hmem, hmem .relax false 0, hmem .relaxFaceSets false 0⟩
  cases t <;> cases d <;> rfl

/-! ## C2 -/

/-- Restoring one node overwrites exactly its member vertices with the
snapshot values. -/
theorem cancel_node_fold {n : ℕ} (orig : Fin n → Vec3) (node : List (Fin n))
    (p : Fin n → Vec3) (j : Fin n) :
    (node.foldl (fun p i => Function.update p i (orig i)) p) j =
      if j ∈ node then orig j else p j := by
  induction node generalizing p with
  | nil => simp
  | cons a l ih =>
      simp only [List.foldl_cons]
      rw [ih]
      by_cases hj : j ∈ l
      · simp [hj]
      · by_cases hja : j = a
        · subst hja; simp [hj]
        · simp [hj, hja, Function.update_noteq hja]

/-- Pointwise description of `sculpt_mesh_filter_cancel`. -/
theorem sculpt_mesh_filter_cancel_apply {n : ℕ} (orig : Fin n → Vec3)
    (nodes : List (List (Fin n))) (pos : Fin n → Vec3) (j : Fin n) :
    sculpt_mesh_filter_cancel orig nodes pos j =
      if j ∈ nodes.flatten then orig j else pos j := by
  induction nodes generalizing pos with
  | nil => simp [sculpt_mesh_filter_cancel]
  | cons nd rest ih =>
      simp only [sculpt_mesh_filter_cancel, List.foldl_cons] at ih ⊢
      rw [ih, cancel_node_fold]
      by_cases h1 : j ∈ rest.flatten <;> by_cases h2 : j ∈ nd <;>
        simp [h1, h2, List.flatten_cons, List.mem_append]

/-- C2: cancellation round-trip.  Start snapshots the pre-start positions
(`SCULPT_undo_push_node` at cache init); any number of apply iterations — of
any kinds and strengths, here any sequence of position transformers — may then
run; `sculpt_mesh_filter_cancel` copies the snapshot back over every vertex of
the gathered nodes, so when the nodes cover the mesh the positions after
cancel equal the positions before start. -/
theorem cancel_roundtrip {n : ℕ} (nodes : List (List (Fin n)))
    (hcov : ∀ i : Fin n, i ∈ nodes.flatten) (pos0 : Fin n → Vec3)
    (its : List ((Fin n → Vec3) → (Fin n → Vec3))) :
    sculpt_mesh_filter_cancel pos0 nodes (its.foldl (fun p f => f p) pos0) = pos0 := by
  funext j
  rw [sculpt_mesh_filter_cancel_apply]
  simp [hcov j]

/-- Evaluation of `cancel_roundtrip` on a two-vertex mesh with two nodes and
one mutating iteration. -/
theorem cancel_roundtrip_witness :
    (∀ i : Fin 2, i ∈ ([[0], [1]] : List (List (Fin 2))).flatten) ∧
    sculpt_mesh_filter_cancel (fun _ : Fin 2 => (fun _ => 0 : Vec3))
      ([[0], [1]] : List (List (Fin 2)))
      ([fun _ => fun _ => fun _ => (5 : ℚ)].foldl (fun p f => f p)
        (fun _ : Fin 2 => (fun _ => 0 : Vec3))) = fun _ => (fun _ => 0 : Vec3) :=
  ⟨by decide,
   cancel_roundtrip ([[0], [1]] : List (List (Fin 2))) (by decide)
     (fun _ => (fun _ => 0 : Vec3)) [fun _ => fun _ => fun _ => (5 : ℚ)]⟩

/-! ## C6 -/

/-- The first pass stores a laplacian value for a SurfaceSmooth vertex
unconditionally: the zero-fade skip of lines 397-403 explicitly excludes
SurfaceSmooth, and the RelaxFaceSets skip does not apply. -/
theorem surface_smooth_step_always_stores (env : FilterEnv) (v : VertexIn)
    (e : ExternIn) :
    (mesh_filter_task_step env v e .surfaceSmooth).laplacian_write
      = some e.laplacian_store := by
  simp [mesh_filter_task_step, mesh_filter_lap_write]

/-- Laplacian content of the buffer after one node of the first pass. -/
theorem filter_node_pass_lap {n : ℕ} (env : FilterEnv) (mi : MeshInputs n)
    (node : List (Fin n)) (st : SurfState n) (j : Fin n) :
    (filter_node_pass env mi .surfaceSmooth node st).lap j =
      if j ∈ node then some ((mi.ext j).laplacian_store) else st.lap j := by
  induction node generalizing st with
  | nil => simp [filter_node_pass]
  | cons a l ih =>
      simp only [filter_node_pass, List.foldl_cons] at ih ⊢
      rw [ih]
      by_cases hj : j ∈ l
      · simp [hj]
      · by_cases hja : j = a
        · subst hja
          simp [hj, surface_smooth_step_always_stores]
        · simp [hj, hja, surface_smooth_step_always_stores,
            Function.update_noteq hja]

/-- Laplacian content of the buffer after the whole first pass. -/
theorem filter_main_pass_lap {n : ℕ} (env : FilterEnv) (mi : MeshInputs n)
    (nodes : List (List (Fin n))) (s : SurfState n) (j : Fin n) :
    (filter_main_pass env mi .surfaceSmooth nodes s).lap j =
      if j ∈ nodes.flatten then some ((mi.ext j).laplacian_store) else s.lap j := by
  induction nodes generalizing s with
  | nil => simp [filter_main_pass]
  | cons nd rest ih =>
      simp only [filter_main_pass, List.foldl_cons] at ih ⊢
      rw [ih, filter_node_pass_lap]
      by_cases h1 : j ∈ rest.flatten <;> by_cases h2 : j ∈ nd <;>
        simp [h1, h2, List.flatten_cons, List.mem_append]

/-- C6: for SurfaceSmooth, one apply call is exactly the sequential
composition of the two complete passes — the displace pass starts only from
the state the laplacian pass produced — and after the first pass the
laplacian buffer holds a finalized value for every vertex of every node,
including vertices whose fade is zero; the second pass therefore never reads
a laplacian the first pass has not written. -/
theorem surface_smooth_two_pass {n : ℕ} (env : FilterEnv) (mi : MeshInputs n)
    (nodes : List (List (Fin n))) (s : SurfState n)
    (hcov : ∀ i : Fin n, i ∈ nodes.flatten) :
    sculpt_mesh_filter_apply_passes env mi .surfaceSmooth nodes s =
      surface_smooth_displace_pass env mi nodes
        (filter_main_pass env mi .surfaceSmooth nodes s) ∧
    ∀ i : Fin n, (filter_main_pass env mi .surfaceSmooth nodes s).lap i =
      some ((mi.ext i).laplacian_store) := by
  constructor
  · simp [sculpt_mesh_filter_apply_passes]
  · intro i
    rw [filter_main_pass_lap]
    simp [hcov i]

/-- Evaluation of `surface_smooth_two_pass` on a one-vertex mesh whose fade is
zero (strength 0): the laplacian is stored regardless. -/
theorem surface_smooth_two_pass_witness :
    (∀ i : Fin 1, i ∈ ([[0]] : List (List (Fin 1))).flatten) ∧
    (filter_main_pass (wEnv 0) wMi .surfaceSmooth [[0]] wS).lap 0 =
      some ((wMi.ext 0).laplacian_store) :=
  ⟨by decide, (surface_smooth_two_pass (wEnv 0) wMi [[0]] wS (by decide)).2 0⟩

/-! ## Properties of the max-search fold (lines 634-639) -/

/-- The fold never goes below its accumulator. -/
theorem max_factor_fold_init_le {α : Type} (f : α → ℚ) (l : List α) (a : ℚ) :
    a ≤ l.foldl (fun m i => if f i > m then f i else m) a := by
  induction l generalizing a with
  | nil => simp
  | cons b t ih =>
      simp only [List.foldl_cons]
      refine le_trans ?_ (ih _)
      by_cases h : f b > a
      · simp only [if_pos h]
        exact le_of_lt h
      · simp only [if_neg h]
        exact le_refl a

/-- The fold dominates every listed value. -/
theorem max_factor_fold_mem_le {α : Type} (f : α → ℚ) (l : List α) :
    ∀ x ∈ l, ∀ a : ℚ, f x ≤ l.foldl (fun m i => if f i > m then f i else m) a := by
  induction l with
  | nil => intro x hx; cases hx
  | cons b t ih =>
      intro x hx a
      simp only [List.foldl_cons]
      rcases List.mem_cons.mp hx with h | h
      · subst h
        refine le_trans ?_ (max_factor_fold_init_le f t _)
        by_cases hba : f x > a
        · simp only [if_pos hba]; exact le_refl _
        · simp only [if_neg hba]; exact le_of_not_lt hba
      · exact ih x h _

/-- The fold respects a common upper bound. -/
theorem max_factor_fold_le {α : Type} (f : α → ℚ) (l : List α) (b : ℚ) :
    (∀ x ∈ l, f x ≤ b) → ∀ a : ℚ, a ≤ b →
      l.foldl (fun m i => if f i > m then f i else m) a ≤ b := by
  induction l with
  | nil => intro _ a ha; simpa using ha
  | cons c t ih =>
      intro hb a ha
      simp only [List.foldl_cons]
      refine ih (fun x hx => hb x (List.mem_cons_of_mem _ hx)) _ ?_
      by_cases hc : f c > a
      · simp only [if_pos hc]; exact hb c (List.mem_cons_self _ _)
      · simp only [if_neg hc]; exact ha

/-- The fold result is the accumulator or one of the listed values. -/
theorem max_factor_fold_attained {α : Type} (f : α → ℚ) (l : List α) :
    ∀ a : ℚ, l.foldl (fun m i => if f i > m then f i else m) a = a ∨
      ∃ x ∈ l, l.foldl (fun m i => if f i > m then f i else m) a = f x := by
  induction l with
  | nil => intro a; left; rfl
  | cons c t ih =>
      intro a
      simp only [List.foldl_cons]
      rcases ih (if f c > a then f c else a) with h | ⟨x, hx, hfx⟩
      · rw [h]
        by_cases hc : f c > a
        · right; exact ⟨c, List.mem_cons_self _ _, by simp only [if_pos hc]⟩
        · left; simp only [if_neg hc]
      · right; exact ⟨x, List.mem_cons_of_mem _ hx, hfx⟩

/-- Every per-vertex factor is at most the computed global maximum. -/
theorem le_sharpen_max_factor (n : ℕ) (f : Fin n → ℚ) (i : Fin n) :
    f i ≤ sharpen_max_factor n f :=
  max_factor_fold_mem_le f (List.finRange n) i (List.mem_finRange i) 0

/-- The computed global maximum is nonnegative (it starts at 0). -/
theorem sharpen_max_factor_nonneg (n : ℕ) (f : Fin n → ℚ) :
    0 ≤ sharpen_max_factor n f :=
  max_factor_fold_init_le f (List.finRange n) 0

/-- The computed global maximum respects a common nonnegative upper bound. -/
theorem sharpen_max_factor_le (n : ℕ) (f : Fin n → ℚ) (b : ℚ)
    (hb : ∀ i, f i ≤ b) (h0 : 0 ≤ b) : sharpen_max_factor n f ≤ b :=
  max_factor_fold_le f (List.finRange n) b (fun x _ => hb x) 0 h0

/-- The computed global maximum is 0 or an attained factor value. -/
theorem sharpen_max_factor_attained (n : ℕ) (f : Fin n → ℚ) :
    sharpen_max_factor n f = 0 ∨ ∃ i, sharpen_max_factor n f = f i := by
  rcases max_factor_fold_attained f (List.finRange n) 0 with h | ⟨x, _, hx⟩
  · left; exact h
  · right; exact ⟨x, hx⟩

/-! ## C9 -/

/-- C9 as amended: after the magnitude computation, the division by the global
maximum and the `1 - (1 - x)^2` remap — that is, with zero configured
smoothing passes — the maximum over all vertices of `sharpen_factor` is
exactly 1, whenever at least one vertex has nonzero detail magnitude (the
length functional being nonnegative, as `len_v3` is). -/
theorem sharpen_max_factor_one_before_smoothing (n : ℕ)
    (nbrs : Fin n → List (Fin n)) (lenv : Vec3 → ℚ) (dirs : Fin n → Vec3)
    (hnn : ∀ i, 0 ≤ lenv (dirs i)) (hex : ∃ i, lenv (dirs i) ≠ 0) :
    sharpen_max_factor n (mesh_filter_sharpen_init n nbrs lenv dirs 0).2 = 1 := by
  obtain ⟨i0, hi0⟩ := hex
  have hM0 : 0 < sharpen_max_factor n (sharpen_factor_raw n lenv dirs) := by
    have h1 : 0 < sharpen_factor_raw n lenv dirs i0 :=
      lt_of_le_of_ne (hnn i0) (Ne.symm hi0)
    exact lt_of_lt_of_le h1 (le_sharpen_max_factor n _ i0)
  have hMne : sharpen_max_factor n (sharpen_factor_raw n lenv dirs) ≠ 0 :=
    ne_of_gt hM0
  have him : ∃ im, sharpen_max_factor n (sharpen_factor_raw n lenv dirs)
      = sharpen_factor_raw n lenv dirs im := by
    rcases sharpen_max_factor_attained n (sharpen_factor_raw n lenv dirs) with h | h
    · exact absurd h hMne
    · exact h
  obtain ⟨im, him⟩ := him
  have hinit : mesh_filter_sharpen_init n nbrs lenv dirs 0
      = (dirs, sharpen_factor_normalized n lenv dirs) := by
    simp [mesh_filter_sharpen_init]
  rw [hinit]
  have hub : ∀ i, sharpen_factor_normalized n lenv dirs i ≤ 1 := by
    intro i
    show 1 - (1 - sharpen_factor_raw n lenv dirs i *
        (1 / sharpen_max_factor n (sharpen_factor_raw n lenv dirs)))^2 ≤ 1
    have hsq : 0 ≤ (1 - sharpen_factor_raw n lenv dirs i *
        (1 / sharpen_max_factor n (sharpen_factor_raw n lenv dirs)))^2 := sq_nonneg _
    linarith
  have hat : sharpen_factor_normalized n lenv dirs im = 1 := by
    show 1 - (1 - sharpen_factor_raw n lenv dirs im *
        (1 / sharpen_max_factor n (sharpen_factor_raw n lenv dirs)))^2 = 1
    rw [← him, mul_one_div, div_self hMne]
    norm_num
  refine le_antisymm (sharpen_max_factor_le n _ 1 hub (by norm_num)) ?_
  calc (1 : ℚ) = sharpen_factor_normalized n lenv dirs im := hat.symm
    _ ≤ sharpen_max_factor n (sharpen_factor_normalized n lenv dirs) :=
        le_sharpen_max_factor n _ im

/-- C9 counterexample: on a two-vertex mesh where vertex 0 has detail
magnitude 1 and vertex 1 has 0, with one configured smoothing pass
(`sharpen_curvature_smooth_iterations = 1`, within its 0..10 range), the
in-place neighbor averaging of lines 648-671 drags every factor to 0, so the
maximum after the full precomputation is not 1 even though a vertex with
nonzero detail magnitude exists. -/
theorem sharpen_smoothing_drops_max :
    (∃ i : Fin 2, sharpen_factor_raw 2 cLen cDirs i ≠ 0) ∧
    sharpen_max_factor 2 (mesh_filter_sharpen_init 2 cNbrs cLen cDirs 1).2 ≠ 1 := by
  have hraw0 : sharpen_factor_raw 2 cLen cDirs 0 = 1 := by
    norm_num [sharpen_factor_raw, cLen, cDirs]
  have hraw1 : sharpen_factor_raw 2 cLen cDirs 1 = 0 := by
    norm_num [sharpen_factor_raw, cLen, cDirs]
  have hfr : List.finRange 2 = [0, 1] := rfl
  have hmax : sharpen_max_factor 2 (sharpen_factor_raw 2 cLen cDirs) = 1 := by
    rw [sharpen_max_factor, max_factor_fold, hfr]
    simp only [List.foldl_cons, List.foldl_nil, hraw0, hraw1]
    norm_num
  have hn0 : sharpen_factor_normalized 2 cLen cDirs 0 = 1 := by
    show 1 - (1 - sharpen_factor_raw 2 cLen cDirs 0 *
        (1 / sharpen_max_factor 2 (sharpen_factor_raw 2 cLen cDirs)))^2 = 1
    rw [hraw0, hmax]
    norm_num
  have hn1 : sharpen_factor_normalized 2 cLen cDirs 1 = 0 := by
    show 1 - (1 - sharpen_factor_raw 2 cLen cDirs 1 *
        (1 / sharpen_max_factor 2 (sharpen_factor_raw 2 cLen cDirs)))^2 = 0
    rw [hraw1, hmax]
    norm_num
  have hnb0 : cNbrs 0 = [1] := rfl
  have hnb1 : cNbrs 1 = [0] := rfl
  have hpass0 : (mesh_filter_sharpen_init 2 cNbrs cLen cDirs 1).2 0 = 0 ∧
      (mesh_filter_sharpen_init 2 cNbrs cLen cDirs 1).2 1 = 0 := by
    rw [mesh_filter_sharpen_init, Function.iterate_one, sharpen_smooth_pass, hfr]
    simp only [List.foldl_cons, List.foldl_nil, hnb0, hnb1]
    norm_num [Function.update, hn0, hn1]
  rcases hpass0 with ⟨hp0, hp1⟩
  constructor
  · exact ⟨0, by rw [hraw0]; norm_num⟩
  · rw [sharpen_max_factor, max_factor_fold, hfr]
    simp only [List.foldl_cons, List.foldl_nil, hp0, hp1]
    norm_num

/-- Evaluation of `sharpen_max_factor_one_before_smoothing` on a one-vertex
mesh with unit detail magnitude. -/
theorem sharpen_max_factor_one_witness :
    (∀ i : Fin 1, 0 ≤ cLen (cDirs1 i)) ∧ (∃ i : Fin 1, cLen (cDirs1 i) ≠ 0) ∧
    sharpen_max_factor 1
      (mesh_filter_sharpen_init 1 (fun _ => []) cLen cDirs1 0).2 = 1 := by
  have h1 : cLen (cDirs1 0) = 1 := by norm_num [cLen, cDirs1]
  refine ⟨?_, ⟨0, by rw [h1]; norm_num⟩, ?_⟩
  · intro i
    rw [Fin.eq_zero i, h1]
    norm_num
  · exact sharpen_max_factor_one_before_smoothing 1 (fun _ => []) cLen cDirs1
      (fun i => by rw [Fin.eq_zero i, h1]; norm_num)
      ⟨0, by rw [h1]; norm_num⟩

/-! ## C10 -/

/-- C10: the sharpen normalization divides by the global maximum with no zero
guard.  Under the precondition that some vertex has nonzero detail magnitude
the divisor is nonzero and every computed factor is a finite number; when
every vertex has zero detail magnitude the divisor is exactly zero and every
computed factor is non-finite (the `Option ℚ` float model: `1/0` is
non-finite and non-finiteness propagates through the remap). -/
theorem sharpen_division_no_zero_guard (n : ℕ) (lenv : Vec3 → ℚ)
    (dirs : Fin n → Vec3) (hnn : ∀ i, 0 ≤ lenv (dirs i)) :
    ((∃ i, lenv (dirs i) ≠ 0) →
      sharpen_max_factor n (sharpen_factor_raw n lenv dirs) ≠ 0 ∧
      ∀ i, (sharpen_factor_normalized_float n lenv dirs i).isSome = true) ∧
    ((∀ i, lenv (dirs i) = 0) →
      sharpen_max_factor n (sharpen_factor_raw n lenv dirs) = 0 ∧
      ∀ i, sharpen_factor_normalized_float n lenv dirs i = none) := by
  constructor
  · rintro ⟨i0, hi0⟩
    have hM0 : 0 < sharpen_max_factor n (sharpen_factor_raw n lenv dirs) := by
      have h1 : 0 < sharpen_factor_raw n lenv dirs i0 :=
        lt_of_le_of_ne (hnn i0) (Ne.symm hi0)
      exact lt_of_lt_of_le h1 (le_sharpen_max_factor n _ i0)
    have hMne : sharpen_max_factor n (sharpen_factor_raw n lenv dirs) ≠ 0 :=
      ne_of_gt hM0
    refine ⟨hMne, fun i => ?_⟩
    simp [sharpen_factor_normalized_float, finite_div, finite_mul, finite_sub, hMne]
  · intro hall
    have hM0 : sharpen_max_factor n (sharpen_factor_raw n lenv dirs) = 0 := by
      rcases sharpen_max_factor_attained n (sharpen_factor_raw n lenv dirs) with h | ⟨i, hi⟩
      · exact h
      · rw [hi]; exact hall i
    refine ⟨hM0, fun i => ?_⟩
    simp [sharpen_factor_normalized_float, finite_div, finite_mul, finite_sub, hM0]

/-- Evaluation of `sharpen_division_no_zero_guard` on a one-vertex mesh with
unit detail magnitude. -/
theorem sharpen_division_no_zero_guard_witness :
    (∀ i : Fin 1, 0 ≤ cLen (cDirs1 i)) ∧
    (((∃ i : Fin 1, cLen (cDirs1 i) ≠ 0) →
      sharpen_max_factor 1 (sharpen_factor_raw 1 cLen cDirs1) ≠ 0 ∧
      ∀ i, (sharpen_factor_normalized_float 1 cLen cDirs1 i).isSome = true) ∧
    ((∀ i : Fin 1, cLen (cDirs1 i) = 0) →
      sharpen_max_factor 1 (sharpen_factor_raw 1 cLen cDirs1) = 0 ∧
      ∀ i, sharpen_factor_normalized_float 1 cLen cDirs1 i = none)) := by
  have h1 : cLen (cDirs1 0) = 1 := by norm_num [cLen, cDirs1]
  refine ⟨fun i => by rw [Fin.eq_zero i, h1]; norm_num, ?_⟩
  exact sharpen_division_no_zero_guard 1 cLen cDirs1
    (fun i => by rw [Fin.eq_zero i, h1]; norm_num)

end SculptFilterMesh
